import Mathlib

/-!
Verification development for the slot-machine Monte Carlo simulation core
(`templates/math_simulation.py`) and the RTP optimizer / player-behavior
tools (`tools/tier1_upgrades.py`).

The Python code is shallowly embedded: floats become exact rationals (`ℚ`),
the module-level RNG becomes an explicit sequence of grids (`GridSeq`),
and the potentially unbounded free-spin cascade is run with explicit fuel,
returning `none` exactly when the cascade has not terminated within the
fuel bound.  Python divisions that can raise `ZeroDivisionError` are
embedded in `Except String`.
-/

namespace SlotSim

/-! ### Configuration (`math_simulation.py`, module constants) -/

def NUM_REELS : ℕ := 5

def NUM_ROWS : ℕ := 3

def WILD_SYMBOL : String := "WD"

def SCATTER_SYMBOL : String := "SC"

/-- The paytable, in Python-dict insertion order: symbol ↦ {run length ↦ payout}. -/
def PAYTABLE : List (String × List (ℕ × ℚ)) :=
  [ ("H1", [(3, 2.00), (4, 8.00), (5, 40.00)])
  , ("H2", [(3, 1.50), (4, 5.00), (5, 25.00)])
  , ("H3", [(3, 1.00), (4, 4.00), (5, 20.00)])
  , ("H4", [(3, 0.80), (4, 3.00), (5, 15.00)])
  , ("H5", [(3, 0.60), (4, 2.50), (5, 10.00)])
  , ("L1", [(3, 0.40), (4, 1.50), (5, 5.00)])
  , ("L2", [(3, 0.30), (4, 1.00), (5, 4.00)])
  , ("L3", [(3, 0.25), (4, 0.80), (5, 3.00)])
  , ("L4", [(3, 0.20), (4, 0.60), (5, 2.00)])
  , ("WD", [])
  , ("SC", []) ]

/-- Lookup of `PAYTABLE[symbol].get(length)`. -/
def paytableLookup (s : String) (L : ℕ) : Option ℚ :=
  ((PAYTABLE.lookup s).getD []).lookup L

/-- Free-spin trigger table `{3: 10, 4: 15, 5: 25}` (scatter count ↦ spins awarded). -/
def FREE_SPIN_TRIGGER (sc : ℕ) : Option ℕ :=
  ([(3, 10), (4, 15), (5, 25)] : List (ℕ × ℕ)).lookup sc

def FREE_SPIN_MULTIPLIER : ℚ := 3

def FREE_SPIN_RETRIGGER : Bool := true

/-! ### Grids -/

/-- A spin outcome: a list of reel columns, each a list of row cells. -/
abbrev Grid := List (List String)

/-- Cell access `grid[reel][row]`; out-of-shape access is total with a default that
matches no symbol (grids produced by `spin_reels` always have shape 5×3). -/
def cell (g : Grid) (reel row : ℕ) : String := (g.getD reel []).getD row ""

/-! ### `evaluate_ways_win` (math_simulation.py lines 144-184) -/

/-- Paying symbols: every paytable key that is neither wild nor scatter and
has a non-empty paytable, in iteration order. -/
def payingSymbols : List String :=
  (PAYTABLE.filter
    (fun p => !(p.1 == WILD_SYMBOL) && !(p.1 == SCATTER_SYMBOL) && !p.2.isEmpty)).map
    Prod.fst

/-- Per-reel count of cells equal to the symbol or to the wild. -/
def reelCount (g : Grid) (s : String) (reel : ℕ) : ℕ :=
  (List.range NUM_ROWS).countP
    (fun row => cell g reel row == s || cell g reel row == WILD_SYMBOL)

/-- The `for reel_idx in range(NUM_REELS)` loop with its `break`: collect
per-reel counts left to right, stopping at the first reel with no match. -/
def countsGo (g : Grid) (s : String) : List ℕ → List ℕ
  | [] => []
  | i :: rest =>
      if 0 < reelCount g s i then reelCount g s i :: countsGo g s rest else []

def counts_per_reel (g : Grid) (s : String) : List ℕ :=
  countsGo g s (List.range NUM_REELS)

/-- The product `ways = counts[0] * ... * counts[L-1]`. -/
def waysProd (counts : List ℕ) (L : ℕ) : ℕ :=
  (counts.take L).foldl (fun a c => a * c) 1

/-- Python `range(consecutive_reels, 2, -1)`: the run lengths to try,
longest first, down to 3. -/
def descLens (n : ℕ) : List ℕ := (List.range' 3 (n - 2)).reverse

/-- The inner `for length in ...: if length in PAYTABLE[symbol]: ...; break`
loop: pay the first (longest) length present in the symbol's paytable. -/
def payScan (s : String) (counts : List ℕ) : List ℕ → ℚ
  | [] => 0
  | L :: rest =>
      match paytableLookup s L with
      | some m => m * (waysProd counts L : ℚ)
      | none => payScan s counts rest

/-- One symbol's contribution to the spin win. -/
def symbolWin (g : Grid) (s : String) : ℚ :=
  let counts := counts_per_reel g s
  if counts.length < 3 then 0 else payScan s counts (descLens counts.length)

/-- Python `evaluate_ways_win`: total ways-to-win payout of a grid. -/
def evaluate_ways_win (g : Grid) : ℚ :=
  payingSymbols.foldl (fun acc s => acc + symbolWin g s) 0

/-! ### Specification-side restatement of the win rule (claim C1)

These definitions follow the spec's words: per-reel counts of
symbol-or-wild, the contiguous run length from reel 1, the largest run
length `L ≥ 3` present in the symbol's paytable, and the paytable
multiplier times the product of per-reel counts over the first `L` reels,
each symbol paying at most once; per-symbol payouts are summed. -/

/-- The contiguous (from reel 1) prefix of positive per-reel counts. -/
def specCounts (g : Grid) (s : String) : List ℕ :=
  ((List.range NUM_REELS).map (reelCount g s)).takeWhile (fun c => decide (0 < c))

/-- Number of consecutive matching reels from the left. -/
def runLen (g : Grid) (s : String) : ℕ := (specCounts g s).length

def hasPay (s : String) (L : ℕ) : Bool := (paytableLookup s L).isSome

/-- The longest run length `L ≥ 3` that is at most `n` and present in the
symbol's paytable (`0` when there is none). -/
def bestLen (s : String) (n : ℕ) : ℕ :=
  Nat.findGreatest (fun L => 3 ≤ L ∧ hasPay s L = true) n

/-- Product of the per-reel counts over the first `L` reels. -/
def specWays (g : Grid) (s : String) (L : ℕ) : ℕ :=
  ((List.range L).map (reelCount g s)).foldl (fun a c => a * c) 1

/-- The spec's payout for one symbol. -/
def specSymbolPay (g : Grid) (s : String) : ℚ :=
  let L := bestLen s (runLen g s)
  if 3 ≤ L then (paytableLookup s L).getD 0 * (specWays g s L : ℚ) else 0

/-- The spec's total payout: per-symbol payouts summed over paying symbols. -/
def specTotalWin (g : Grid) : ℚ := (payingSymbols.map (specSymbolPay g)).sum

/-! ### Equivalence of `evaluate_ways_win` with the spec's win rule -/

lemma countsGo_eq_takeWhile (g : Grid) (s : String) :
    ∀ l : List ℕ,
      countsGo g s l = (l.map (reelCount g s)).takeWhile (fun c => decide (0 < c)) := by
  intro l
  induction l with
  | nil => rfl
  | cons i rest ih =>
      by_cases h : 0 < reelCount g s i
      · simp [countsGo, h, List.takeWhile_cons, ih]
      · simp [countsGo, h, List.takeWhile_cons]

lemma length_takeWhile_le' {α : Type} (p : α → Bool) :
    ∀ l : List α, (l.takeWhile p).length ≤ l.length := by
  intro l
  induction l with
  | nil => simp
  | cons a rest ih =>
      by_cases h : p a
      · simpa [List.takeWhile_cons, h] using ih
      · simp [List.takeWhile_cons, h]

lemma take_takeWhile_eq {α : Type} (p : α → Bool) :
    ∀ (l : List α) (L : ℕ), L ≤ (l.takeWhile p).length →
      (l.takeWhile p).take L = l.take L := by
  intro l
  induction l with
  | nil => simp
  | cons a rest ih =>
      intro L hL
      by_cases h : p a
      · cases L with
        | zero => simp
        | succ L' =>
            rw [List.takeWhile_cons, if_pos h] at hL ⊢
            simp only [List.take_succ_cons]
            rw [ih L' (by simpa using hL)]
      · rw [List.takeWhile_cons, if_neg h] at hL
        have hL0 : L = 0 := by simpa using hL
        subst hL0
        simp

lemma range'_concat' : ∀ s n : ℕ, List.range' s (n + 1) = List.range' s n ++ [s + n] := by
  intro s n
  induction n generalizing s with
  | zero => simp [List.range'_succ]
  | succ n ih =>
      rw [List.range'_succ, ih (s + 1), List.range'_succ]
      simp [Nat.add_assoc, Nat.add_comm 1 n]

lemma descLens_succ (n : ℕ) (h : 2 ≤ n) : descLens (n + 1) = (n + 1) :: descLens n := by
  unfold descLens
  have h1 : n + 1 - 2 = (n - 2) + 1 := by omega
  rw [h1, range'_concat']
  have h2 : 3 + (n - 2) = n + 1 := by omega
  simp [h2]

lemma bestLen_le (s : String) (n : ℕ) : bestLen s n ≤ n := Nat.findGreatest_le _

lemma payScan_descLens (s : String) (counts : List ℕ) :
    ∀ n : ℕ, payScan s counts (descLens n) =
      if 3 ≤ bestLen s n then
        (paytableLookup s (bestLen s n)).getD 0 * (waysProd counts (bestLen s n) : ℚ)
      else 0 := by
  intro n
  induction n with
  | zero =>
      have : bestLen s 0 = 0 := rfl
      simp [descLens, payScan, this]
  | succ n ih =>
      by_cases h3 : 3 ≤ n + 1
      · rw [descLens_succ n (by omega)]
        rcases hp : paytableLookup s (n + 1) with _ | m
        · have hP : ¬(3 ≤ n + 1 ∧ hasPay s (n + 1) = true) := by
            simp [hasPay, hp]
          have hb : bestLen s (n + 1) = bestLen s n := by
            unfold bestLen
            rw [Nat.findGreatest_succ, if_neg hP]
          simp only [payScan, hp]
          rw [ih, hb]
        · have hP : 3 ≤ n + 1 ∧ hasPay s (n + 1) = true := ⟨h3, by simp [hasPay, hp]⟩
          have hb : bestLen s (n + 1) = n + 1 := by
            unfold bestLen
            rw [Nat.findGreatest_succ, if_pos hP]
          simp only [payScan, hp]
          rw [hb, if_pos h3, hp]
          simp
      · have h0 : n + 1 - 2 = 0 := by omega
        have hb : bestLen s (n + 1) ≤ n + 1 := bestLen_le s (n + 1)
        rw [if_neg (by omega)]
        simp [descLens, h0, payScan]

lemma counts_take_eq (g : Grid) (s : String) (L : ℕ) (hL : L ≤ runLen g s) :
    (counts_per_reel g s).take L = (List.range L).map (reelCount g s) := by
  have hc : counts_per_reel g s = specCounts g s := by
    unfold counts_per_reel specCounts
    rw [countsGo_eq_takeWhile]
  have h5 : runLen g s ≤ NUM_REELS := by
    have := length_takeWhile_le' (fun c => decide (0 < c))
      ((List.range NUM_REELS).map (reelCount g s))
    simpa [runLen, specCounts] using this
  rw [hc]
  unfold specCounts
  rw [take_takeWhile_eq _ _ L (by simpa [runLen, specCounts] using hL)]
  rw [← List.map_take, List.take_range]
  have : L ⊓ NUM_REELS = L := by omega
  rw [this]

lemma symbolWin_eq_specSymbolPay (g : Grid) (s : String) :
    symbolWin g s = specSymbolPay g s := by
  have hc : counts_per_reel g s = specCounts g s := by
    unfold counts_per_reel specCounts
    rw [countsGo_eq_takeWhile]
  have hlen : (counts_per_reel g s).length = runLen g s := by rw [hc]; rfl
  simp only [symbolWin, specSymbolPay]
  by_cases hn : (counts_per_reel g s).length < 3
  · rw [if_pos hn]
    have hb : bestLen s (runLen g s) ≤ runLen g s := bestLen_le s (runLen g s)
    rw [if_neg (by omega)]
  · rw [if_neg hn, hlen, payScan_descLens]
    by_cases h3 : 3 ≤ bestLen s (runLen g s)
    · rw [if_pos h3, if_pos h3]
      have hco : waysProd (counts_per_reel g s) (bestLen s (runLen g s)) =
          specWays g s (bestLen s (runLen g s)) := by
        unfold waysProd specWays
        rw [counts_take_eq g s (bestLen s (runLen g s)) (bestLen_le s (runLen g s))]
      rw [hco]
    · rw [if_neg h3, if_neg h3]

lemma foldl_add_eq (g : Grid) :
    ∀ (l : List String) (a : ℚ),
      l.foldl (fun acc s => acc + symbolWin g s) a = a + (l.map (symbolWin g)).sum := by
  intro l
  induction l with
  | nil => simp
  | cons x rest ih =>
      intro a
      simp only [List.foldl_cons, List.map_cons, List.sum_cons]
      rw [ih]
      ring

/-- Claim C1: for every grid, `evaluate_ways_win` computes exactly the payout
described by the spec: per paying symbol (wild and scatter excluded),
per-reel symbol-or-wild counts taken left to right stopping at the first
zero, no payout for runs shorter than 3, otherwise the paytable multiplier
of the longest run length `L ≥ 3` present in the symbol's paytable times
the product of the per-reel counts over the first `L` reels, each symbol
paying at most once; per-symbol payouts are summed. -/
theorem claim1_ways_win_matches_spec (g : Grid) :
    evaluate_ways_win g = specTotalWin g := by
  unfold evaluate_ways_win specTotalWin
  rw [foldl_add_eq g payingSymbols 0, zero_add]
  have : symbolWin g = specSymbolPay g := funext (symbolWin_eq_specSymbolPay g)
  rw [this]

/-! ### Wild behaviour (claim C6) -/

/-- Per-reel count of cells exactly equal to one symbol. -/
def exactCount (g : Grid) (t : String) (reel : ℕ) : ℕ :=
  (List.range NUM_ROWS).countP (fun row => cell g reel row == t)

lemma countP_or_eq_add (c : ℕ → String) (s : String) (hs : ¬s = WILD_SYMBOL) :
    ∀ l : List ℕ,
      l.countP (fun r => c r == s || c r == WILD_SYMBOL) =
        l.countP (fun r => c r == s) + l.countP (fun r => c r == WILD_SYMBOL) := by
  intro l
  induction l with
  | nil => rfl
  | cons a rest ih =>
      rw [List.countP_cons, List.countP_cons, List.countP_cons, ih]
      by_cases h1 : c a = s
      · by_cases h2 : c a = WILD_SYMBOL
        · exact absurd (h1 ▸ h2) hs
        · simp [h1, h2, hs]
          omega
      · by_cases h2 : c a = WILD_SYMBOL
        · simp [h1, h2, Ne.symm hs]
          omega
        · simp [h1, h2]

lemma paytableLookup_wild (L : ℕ) : paytableLookup WILD_SYMBOL L = none := rfl

lemma payScan_wild (counts : List ℕ) :
    ∀ l : List ℕ, payScan WILD_SYMBOL counts l = 0 := by
  intro l
  induction l with
  | nil => rfl
  | cons L rest ih => simp only [payScan, paytableLookup_wild]; exact ih

/-- Claim C6: the wild is not a paying symbol, never receives a standalone
payout, and on every reel it counts toward the per-reel match count of
every paying symbol (the symbol-or-wild count splits as exact-symbol
matches plus wild matches). -/
theorem claim6_wild_never_standalone_always_extends :
    WILD_SYMBOL ∉ payingSymbols ∧
      (∀ g : Grid, symbolWin g WILD_SYMBOL = 0) ∧
      (∀ (g : Grid) (reel : ℕ) (s : String), s ∈ payingSymbols →
        reelCount g s reel =
          exactCount g s reel + exactCount g WILD_SYMBOL reel) := by
  refine ⟨by decide, ?_, ?_⟩
  · intro g
    by_cases h : (counts_per_reel g WILD_SYMBOL).length < 3 <;>
      simp [symbolWin, h, payScan_wild]
  · intro g reel s hs
    have hall : ∀ x ∈ payingSymbols, ¬x = WILD_SYMBOL := by decide
    exact countP_or_eq_add (cell g reel) s (hall s hs) _

/-! ### Scatters and the free-spin cascade (math_simulation.py lines 187-217) -/

/-- Python `count_scatters`: scatter symbols anywhere on the grid. -/
def count_scatters (g : Grid) : ℕ :=
  (g.flatten).countP (fun c => c == SCATTER_SYMBOL)

/-- The RNG of `spin_reels`, embedded as an explicit sequence of grids:
position `k` is the grid produced by the `k`-th spin of the reels. -/
def GridSeq := ℕ → Grid

/-- The retrigger amount a free-spin grid adds to the remaining-spin
counter (0 when the grid does not retrigger). -/
def retrigAmt (g : Grid) : ℕ :=
  if FREE_SPIN_RETRIGGER = true then
    if 3 ≤ count_scatters g ∧ (FREE_SPIN_TRIGGER (count_scatters g)).isSome = true then
      (FREE_SPIN_TRIGGER (count_scatters g)).getD 0
    else 0
  else 0

/-- The `while remaining > 0` loop of `run_free_spins`, with explicit fuel.
State: grid cursor `k`, remaining spins `r`, accumulated win `acc`, spins
executed `exec`.  Returns `some (total_win, next_cursor, spins_executed)`
when the cascade terminates within the fuel, `none` otherwise. -/
def run_free_spins_go (σ : GridSeq) (fuel k r : ℕ) (acc : ℚ) (exec : ℕ) :
    Option (ℚ × ℕ × ℕ) :=
  match r, fuel with
  | 0, _ => some (acc, k, exec)
  | _ + 1, 0 => none
  | r' + 1, fuel' + 1 =>
      run_free_spins_go σ fuel' (k + 1) (r' + retrigAmt (σ k))
        (acc + evaluate_ways_win (σ k) * FREE_SPIN_MULTIPLIER) (exec + 1)

/-- Python `run_free_spins(num_spins)` starting at grid cursor `k`. -/
def run_free_spins (σ : GridSeq) (fuel k num_spins : ℕ) : Option (ℚ × ℕ × ℕ) :=
  run_free_spins_go σ fuel k num_spins 0 0

/-! ### Statistics accumulator (math_simulation.py lines 114-126, 220-237) -/

/-- The `SimulationStats` record, with the defaultdict win distribution as an
association list from bucket name to count. -/
structure SimStats where
  total_spins : ℕ
  total_wagered : ℚ
  total_won : ℚ
  base_game_won : ℚ
  feature_won : ℚ
  wins : ℕ
  free_spin_triggers : ℕ
  free_spins_played : ℕ
  max_win : ℚ
  win_distribution : List (String × ℕ)
deriving DecidableEq

def initStats : SimStats :=
  { total_spins := 0, total_wagered := 0, total_won := 0, base_game_won := 0
  , feature_won := 0, wins := 0, free_spin_triggers := 0, free_spins_played := 0
  , max_win := 0, win_distribution := [] }

/-- Python `categorize_win`: the fixed multiple-of-bet buckets. -/
def categorize_win (w : ℚ) : String :=
  if w = 0 then "0x"
  else if w < 1 then "0-1x"
  else if w < 2 then "1-2x"
  else if w < 5 then "2-5x"
  else if w < 20 then "5-20x"
  else if w < 100 then "20-100x"
  else if w < 1000 then "100-1000x"
  else "1000x+"

/-- A `defaultdict(int)` increment. -/
def bumpDist : List (String × ℕ) → String → List (String × ℕ)
  | [], key => [(key, 1)]
  | (k, v) :: rest, key =>
      if k == key then (k, v + 1) :: rest else (k, v) :: bumpDist rest key

/-- The per-spin "Track stats" block (lines 279-284): win counter,
total won, max win, win-distribution bucket. -/
def trackStats (s : SimStats) (w : ℚ) : SimStats :=
  let s1 := if 0 < w then { s with wins := s.wins + 1 } else s
  { s1 with total_won := s1.total_won + w
          , max_win := max s1.max_win w
          , win_distribution := bumpDist s1.win_distribution (categorize_win w) }

def bet_per_spin : ℚ := 1

/-- One iteration of the main simulation loop (lines 254-284): wager, spin,
evaluate the base win, run the free-spin cascade on a scatter trigger, then
track the spin's total win.  Returns the updated stats and grid cursor;
`none` exactly when a triggered cascade did not terminate within `fuel`. -/
def spin_step (σ : GridSeq) (fuel : ℕ) (stats : SimStats) (k : ℕ) :
    Option (SimStats × ℕ) :=
  let g := σ k
  let stats1 := { stats with total_spins := stats.total_spins + 1
                           , total_wagered := stats.total_wagered + bet_per_spin }
  let base_win := evaluate_ways_win g
  let stats2 := { stats1 with base_game_won := stats1.base_game_won + base_win }
  let sc := count_scatters g
  if 3 ≤ sc ∧ (FREE_SPIN_TRIGGER sc).isSome = true then
    match run_free_spins σ fuel (k + 1) ((FREE_SPIN_TRIGGER sc).getD 0) with
    | none => none
    | some (feature_win, k', _exec) =>
        let stats3 := { stats2 with
            free_spin_triggers := stats2.free_spin_triggers + 1
          , free_spins_played :=
              stats2.free_spins_played + (FREE_SPIN_TRIGGER sc).getD 0
          , feature_won := stats2.feature_won + feature_win }
        some (trackStats stats3 (base_win + feature_win), k')
  else
    some (trackStats stats2 base_win, k + 1)

/-- The `for i in range(num_spins)` loop of `run_simulation`. -/
def sim_loop (σ : GridSeq) (fuel : ℕ) : ℕ → SimStats → ℕ → Option (SimStats × ℕ)
  | 0, stats, k => some (stats, k)
  | n + 1, stats, k =>
      match spin_step σ fuel stats k with
      | none => none
      | some (stats', k') => sim_loop σ fuel n stats' k'

/-! ### Finalization (math_simulation.py lines 286-314) -/

/-- A Python float division: raises `ZeroDivisionError` on a zero
denominator. -/
def pyDiv (a b : ℚ) : Except String ℚ :=
  if b = 0 then Except.error "ZeroDivisionError" else Except.ok (a / b)

/-- The division-derived final metrics (measured RTP first, exactly as in
the source; any zero denominator raises at the first affected division). -/
structure CoreMetrics where
  measured_rtp : ℚ
  hit_frequency : ℚ
  base_rtp : ℚ
  feature_rtp : ℚ
  avg_win : ℚ
deriving DecidableEq

def finalizeMetrics (stats : SimStats) : Except String CoreMetrics := do
  let r ← pyDiv stats.total_won stats.total_wagered
  let hf ← pyDiv (stats.wins : ℚ) (stats.total_spins : ℚ)
  let br ← pyDiv stats.base_game_won stats.total_wagered
  let fr ← pyDiv stats.feature_won stats.total_wagered
  let aw ← pyDiv stats.total_won (stats.total_spins : ℚ)
  return { measured_rtp := r * 100, hit_frequency := hf * 100
         , base_rtp := br * 100, feature_rtp := fr * 100, avg_win := aw }

/-- Python `run_simulation(num_spins)` over an explicit grid sequence: run the
spin loop, then finalize.  `CASCADE_FUEL_EXHAUSTED` is a pure embedding
artifact (the Python cascade simply keeps running). -/
def run_simulation (σ : GridSeq) (fuel n : ℕ) : Except String CoreMetrics :=
  match sim_loop σ fuel n initStats 0 with
  | none => Except.error "CASCADE_FUEL_EXHAUSTED"
  | some (stats, _) => finalizeMetrics stats

/-- The point-estimate RTP `total_won / total_wagered * 100` of a stats
record (as the unguarded expression, for reasoning about completed runs
with nonzero wagers). -/
def rtpQ (stats : SimStats) : ℚ := stats.total_won / stats.total_wagered * 100

/-! ### 99% confidence interval (lines 311-314)

`np.sqrt` returns NaN on a negative argument; the embedding models a NaN
result as `none` (no usable interval).  `Real.sqrt` itself is noncomputable,
so these two definitions are the only noncomputable ones in the file. -/

def ci_radicand (rtp : ℚ) (n : ℕ) : ℚ := rtp * (100 - rtp) / n

noncomputable def npSqrt (x : ℚ) : Option ℝ :=
  if 0 ≤ x then some (Real.sqrt x) else none

/-- The interval `rtp_ci = (measured_rtp - ci_margin, measured_rtp + ci_margin)` with
`ci_margin = 2.576 * rtp_std`. -/
noncomputable def rtp_ci (rtp : ℚ) (n : ℕ) : Option (ℝ × ℝ) :=
  (npSqrt (ci_radicand rtp n)).map
    (fun sd => ((rtp : ℝ) - 2.576 * sd, (rtp : ℝ) + 2.576 * sd))

/-! ### The RTP optimizer's batch simulation (tier1_upgrades.py lines 250-279)

The generated script's `simulate` checks wins per row: on each row it
counts the run of cells exactly equal to the symbol from the left, and adds
the paytable value for that exact count when the count is at least 3, for
every paytable symbol. -/

def OPT_COLS : ℕ := 5

def OPT_ROWS : ℕ := 3

/-- The `for col in range(COLS)` loop with its `break`: length of the run
of cells equal to `sym` on one row, from the left. -/
def rowRunGo (w : Grid) (row : ℕ) (sym : String) : List ℕ → ℕ
  | [] => 0
  | c :: rest =>
      if cell w c row == sym then rowRunGo w row sym rest + 1 else 0

def rowRunCount (w : Grid) (row : ℕ) (sym : String) : ℕ :=
  rowRunGo w row sym (List.range OPT_COLS)

/-- One symbol × row contribution: pay `pays[str(count)]` when that key
exists and the count is at least 3. -/
def simRowPay (w : Grid) (sym : String) (pays : List (ℕ × ℚ)) (row : ℕ) : ℚ :=
  match pays.lookup (rowRunCount w row sym) with
  | some m => if 3 ≤ rowRunCount w row sym then m else 0
  | none => 0

/-- Total payout the optimizer's `simulate` adds for one spin window. -/
def tier1_simulate_win (w : Grid) : ℚ :=
  PAYTABLE.foldl
    (fun acc e =>
      (List.range OPT_ROWS).foldl (fun a row => a + simRowPay w e.1 e.2 row) acc)
    0

/-! ### The optimizer's adjustment strength (tier1_upgrades.py lines 281-286) -/

/-- Python `int()` on a float: truncation toward zero. -/
def pyInt (x : ℚ) : ℤ := if 0 ≤ x then ⌊x⌋ else -⌊-x⌋

/-- The code's `strength = max(1, int(abs(deviation) * 2 / (1 + iteration * 0.3)))`. -/
def adjust_strength (current_rtp target : ℚ) (iteration : ℕ) : ℤ :=
  let deviation := current_rtp - target
  max 1 (pyInt (|deviation| * 2 / (1 + (iteration : ℚ) * 0.3)))

/-- The strength formula as the claim states it, with `round` in place of
the code's `int` truncation. -/
def claim_strength (current_rtp target : ℚ) (iteration : ℕ) : ℤ :=
  max 1 (round (|current_rtp - target| * 2 / (1 + (iteration : ℚ) * 0.3)))

/-! ### Churn risk (tier1_upgrades.py lines 742-749) -/

/-- Python `churn_risk` from the median session spin count. -/
def churn_risk (median_spins : ℚ) : String :=
  if median_spins < 50 then "CRITICAL"
  else if median_spins < 100 then "HIGH"
  else if median_spins < 150 then "MEDIUM"
  else "LOW"

/-! ### Concrete grids

Every column below is a consecutive window of the corresponding reel strip
in `REEL_STRIPS`, so each grid is reachable by `spin_reels`. -/

/-- Strip windows 0/5/0(idx 0..2 of reel 3 variant)/0/0: H1 triple plus an
L2 five-of-a-kind; pays 2 + 4 = 6, no scatters. -/
def g6 : Grid :=
  [ ["H1", "L1", "L2"], ["H1", "L1", "L2"], ["H1", "L2", "L3"]
  , ["L1", "L2", "H2"], ["L2", "L3", "H1"] ]

/-- A losing grid: no symbol reaches three consecutive reels, no scatters. -/
def gLoss : Grid :=
  [ ["L1", "L2", "H2"], ["L2", "L3", "L4"], ["L3", "L4", "L1"]
  , ["L1", "L2", "H2"], ["L2", "L3", "H1"] ]

/-- Three scatters (one on each of the first three reels), zero base win. -/
def gSC : Grid :=
  [ ["L2", "L3", "SC"], ["L4", "L1", "SC"], ["H3", "L2", "SC"]
  , ["L1", "L2", "H2"], ["L2", "L3", "H1"] ]

/-- A wild on reel 1 next to an L2. -/
def gWD : Grid :=
  [ ["L2", "WD", "L3"], ["L2", "L3", "L4"], ["L3", "L4", "L1"]
  , ["L1", "L2", "H2"], ["L2", "L3", "H1"] ]

def seq6 : GridSeq := fun _ => g6

def seqLoss : GridSeq := fun _ => gLoss

/-- First free spin retriggers (3 scatters), every later spin loses. -/
def seqSC : GridSeq := fun j => if j = 0 then gSC else gLoss

/-- The completed one-spin run on `seqLoss` (a losing spin). -/
def pLoss : SimStats × ℕ := (sim_loop seqLoss 0 1 initStats 0).getD (initStats, 0)

/-- The completed one-spin run on `seq6` (a 6x win: measured RTP 600%). -/
def p6 : SimStats × ℕ := (sim_loop seq6 0 1 initStats 0).getD (initStats, 0)

/-- The completed 10-spin cascade on `seqSC` (retriggers once to 20 spins). -/
def rfsSC : ℚ × ℕ × ℕ := (run_free_spins seqSC 30 0 10).getD (0, 0, 0)

/-! ### Evaluation helpers for the concrete grids -/

lemma evaluate_ways_win_zero (g : Grid)
    (h : ∀ s ∈ payingSymbols, (counts_per_reel g s).length < 3) :
    evaluate_ways_win g = 0 := by
  unfold evaluate_ways_win
  rw [foldl_add_eq g payingSymbols 0, zero_add]
  apply List.sum_eq_zero
  intro x hx
  obtain ⟨s, hs, rfl⟩ := List.mem_map.mp hx
  simp [symbolWin, h s hs]

lemma eval_gLoss : evaluate_ways_win gLoss = 0 :=
  evaluate_ways_win_zero gLoss (by decide)

lemma eval_gSC : evaluate_ways_win gSC = 0 :=
  evaluate_ways_win_zero gSC (by decide)

lemma eval_g6 : evaluate_ways_win g6 = 6 := by
  have hps : payingSymbols = ["H1", "H2", "H3", "H4", "H5", "L1", "L2", "L3", "L4"] := by
    decide
  have h1 : counts_per_reel g6 "H1" = [1, 1, 1] := by decide
  have h2 : counts_per_reel g6 "H2" = [] := by decide
  have h3 : counts_per_reel g6 "H3" = [] := by decide
  have h4 : counts_per_reel g6 "H4" = [] := by decide
  have h5 : counts_per_reel g6 "H5" = [] := by decide
  have h6 : counts_per_reel g6 "L1" = [1, 1] := by decide
  have h7 : counts_per_reel g6 "L2" = [1, 1, 1, 1, 1] := by decide
  have h8 : counts_per_reel g6 "L3" = [] := by decide
  have h9 : counts_per_reel g6 "L4" = [] := by decide
  have hd3 : descLens 3 = [3] := by decide
  have hd5 : descLens 5 = [5, 4, 3] := by decide
  have hkH1 : paytableLookup "H1" 3 = some 2.00 := rfl
  have hkL2 : paytableLookup "L2" 5 = some 4.00 := rfl
  have hw3 : waysProd [1, 1, 1] 3 = 1 := by decide
  have hw5 : waysProd [1, 1, 1, 1, 1] 5 = 1 := by decide
  rw [evaluate_ways_win, hps]
  norm_num [symbolWin, h1, h2, h3, h4, h5, h6, h7, h8, h9, hd3, hd5,
    payScan, hkH1, hkL2, hw3, hw5]

lemma simRowPay_zero (w : Grid) (sym : String) (pays : List (ℕ × ℚ)) (row : ℕ)
    (h : rowRunCount w row sym < 3) : simRowPay w sym pays row = 0 := by
  unfold simRowPay
  rcases List.lookup (rowRunCount w row sym) pays with _ | m
  · rfl
  · show (if 3 ≤ rowRunCount w row sym then m else 0) = 0
    rw [if_neg (by omega)]

lemma eval_tier1_g6 : tier1_simulate_win g6 = 2 := by
  have hr : List.range OPT_ROWS = [0, 1, 2] := by decide
  have hH1r0 : simRowPay g6 "H1" [(3, 2.00), (4, 8.00), (5, 40.00)] 0 = 2 := by
    have h3 : rowRunCount g6 0 "H1" = 3 := by decide
    have hlk : List.lookup 3 [(3, (2.00 : ℚ)), (4, 8.00), (5, 40.00)] = some 2.00 := rfl
    simp only [simRowPay, h3, hlk]
    norm_num
  unfold tier1_simulate_win PAYTABLE
  rw [hr]
  simp only [List.foldl_cons, List.foldl_nil]
  rw [hH1r0]
  rw [simRowPay_zero g6 "H1" _ 1 (by decide), simRowPay_zero g6 "H1" _ 2 (by decide),
    simRowPay_zero g6 "H2" _ 0 (by decide), simRowPay_zero g6 "H2" _ 1 (by decide),
    simRowPay_zero g6 "H2" _ 2 (by decide),
    simRowPay_zero g6 "H3" _ 0 (by decide), simRowPay_zero g6 "H3" _ 1 (by decide),
    simRowPay_zero g6 "H3" _ 2 (by decide),
    simRowPay_zero g6 "H4" _ 0 (by decide), simRowPay_zero g6 "H4" _ 1 (by decide),
    simRowPay_zero g6 "H4" _ 2 (by decide),
    simRowPay_zero g6 "H5" _ 0 (by decide), simRowPay_zero g6 "H5" _ 1 (by decide),
    simRowPay_zero g6 "H5" _ 2 (by decide),
    simRowPay_zero g6 "L1" _ 0 (by decide), simRowPay_zero g6 "L1" _ 1 (by decide),
    simRowPay_zero g6 "L1" _ 2 (by decide),
    simRowPay_zero g6 "L2" _ 0 (by decide), simRowPay_zero g6 "L2" _ 1 (by decide),
    simRowPay_zero g6 "L2" _ 2 (by decide),
    simRowPay_zero g6 "L3" _ 0 (by decide), simRowPay_zero g6 "L3" _ 1 (by decide),
    simRowPay_zero g6 "L3" _ 2 (by decide),
    simRowPay_zero g6 "L4" _ 0 (by decide), simRowPay_zero g6 "L4" _ 1 (by decide),
    simRowPay_zero g6 "L4" _ 2 (by decide),
    simRowPay_zero g6 "WD" _ 0 (by decide), simRowPay_zero g6 "WD" _ 1 (by decide),
    simRowPay_zero g6 "WD" _ 2 (by decide),
    simRowPay_zero g6 "SC" _ 0 (by decide), simRowPay_zero g6 "SC" _ 1 (by decide),
    simRowPay_zero g6 "SC" _ 2 (by decide)]
  norm_num

/-! ### Structural lemmas about the spin step and the cascade -/

lemma trackStats_total_wagered (s : SimStats) (w : ℚ) :
    (trackStats s w).total_wagered = s.total_wagered := by
  unfold trackStats
  split <;> rfl

lemma trackStats_total_spins (s : SimStats) (w : ℚ) :
    (trackStats s w).total_spins = s.total_spins := by
  unfold trackStats
  split <;> rfl

lemma trackStats_total_won (s : SimStats) (w : ℚ) :
    (trackStats s w).total_won = s.total_won + w := by
  unfold trackStats
  split <;> rfl

lemma trackStats_free_spins_played (s : SimStats) (w : ℚ) :
    (trackStats s w).free_spins_played = s.free_spins_played := by
  unfold trackStats
  split <;> rfl

lemma retrigAmt_of_trigger (g : Grid) (h1 : 3 ≤ count_scatters g)
    (h2 : (FREE_SPIN_TRIGGER (count_scatters g)).isSome = true) :
    retrigAmt g = (FREE_SPIN_TRIGGER (count_scatters g)).getD 0 := by
  unfold retrigAmt FREE_SPIN_RETRIGGER
  simp only [if_true, eq_self_iff_true]
  rw [if_pos ⟨h1, h2⟩]

/-- The no-trigger branch of `spin_step` in closed form. -/
lemma spin_step_no_trigger (σ : GridSeq) (fuel : ℕ) (stats : SimStats) (k : ℕ)
    (h : ¬(3 ≤ count_scatters (σ k) ∧
        (FREE_SPIN_TRIGGER (count_scatters (σ k))).isSome = true)) :
    spin_step σ fuel stats k =
      some (trackStats
        { stats with total_spins := stats.total_spins + 1
                   , total_wagered := stats.total_wagered + bet_per_spin
                   , base_game_won :=
                       stats.base_game_won + evaluate_ways_win (σ k) }
        (evaluate_ways_win (σ k)), k + 1) := by
  simp only [spin_step, if_neg h]

/-- The trigger branch of `spin_step` in closed form, given that the
cascade terminates. -/
lemma spin_step_trigger (σ : GridSeq) (fuel : ℕ) (stats : SimStats) (k : ℕ)
    (h : 3 ≤ count_scatters (σ k) ∧
        (FREE_SPIN_TRIGGER (count_scatters (σ k))).isSome = true)
    (fw : ℚ) (k' exec : ℕ)
    (hr : run_free_spins σ fuel (k + 1)
        ((FREE_SPIN_TRIGGER (count_scatters (σ k))).getD 0) = some (fw, k', exec)) :
    spin_step σ fuel stats k =
      some (trackStats
        { stats with total_spins := stats.total_spins + 1
                   , total_wagered := stats.total_wagered + bet_per_spin
                   , base_game_won :=
                       stats.base_game_won + evaluate_ways_win (σ k)
                   , free_spin_triggers := stats.free_spin_triggers + 1
                   , free_spins_played := stats.free_spins_played +
                       (FREE_SPIN_TRIGGER (count_scatters (σ k))).getD 0
                   , feature_won := stats.feature_won + fw }
        (evaluate_ways_win (σ k) + fw), k') := by
  simp only [spin_step, if_pos h, hr]

/-- Every completed spin step wagers exactly one more unit and counts
exactly one more spin. -/
lemma spin_step_wager_spin (σ : GridSeq) (fuel : ℕ) (stats : SimStats)
    (k : ℕ) (s' : SimStats) (k' : ℕ)
    (h : spin_step σ fuel stats k = some (s', k')) :
    s'.total_wagered = stats.total_wagered + 1 ∧
      s'.total_spins = stats.total_spins + 1 := by
  by_cases hc : 3 ≤ count_scatters (σ k) ∧
      (FREE_SPIN_TRIGGER (count_scatters (σ k))).isSome = true
  · rcases hr : run_free_spins σ fuel (k + 1)
        ((FREE_SPIN_TRIGGER (count_scatters (σ k))).getD 0) with _ | ⟨fw, kk, ex⟩
    · rw [run_free_spins] at hr
      simp only [spin_step, if_pos hc, run_free_spins, hr] at h
      exact absurd h (by simp)
    · rw [spin_step_trigger σ fuel stats k hc fw kk ex hr] at h
      simp only [Option.some.injEq, Prod.mk.injEq] at h
      obtain ⟨hs, hk⟩ := h
      subst hs
      rw [trackStats_total_wagered, trackStats_total_spins]
      exact ⟨rfl, rfl⟩
  · rw [spin_step_no_trigger σ fuel stats k hc] at h
    simp only [Option.some.injEq, Prod.mk.injEq] at h
    obtain ⟨hs, hk⟩ := h
    subst hs
    rw [trackStats_total_wagered, trackStats_total_spins]
    exact ⟨rfl, rfl⟩

/-- The loop invariant: wagered tracks the spin count exactly. -/
lemma sim_loop_invariant (σ : GridSeq) (fuel : ℕ) :
    ∀ (n : ℕ) (stats : SimStats) (k : ℕ) (p : SimStats × ℕ),
      stats.total_wagered = (stats.total_spins : ℚ) →
      sim_loop σ fuel n stats k = some p →
      p.1.total_wagered = (p.1.total_spins : ℚ) ∧
        p.1.total_spins = stats.total_spins + n := by
  intro n
  induction n with
  | zero =>
      intro stats k p hw h
      simp only [sim_loop, Option.some.injEq] at h
      subst h
      exact ⟨hw, rfl⟩
  | succ n ih =>
      intro stats k p hw h
      rw [sim_loop] at h
      rcases hs : spin_step σ fuel stats k with _ | ⟨stats', k'⟩
      · rw [hs] at h
        exact absurd h (by simp)
      · rw [hs] at h
        obtain ⟨hw', hn'⟩ := spin_step_wager_spin σ fuel stats k stats' k' hs
        have hinv' : stats'.total_wagered = (stats'.total_spins : ℚ) := by
          rw [hw', hn', hw]
          push_cast
          ring
        obtain ⟨h1, h2⟩ := ih stats' k' p hinv' h
        refine ⟨h1, ?_⟩
        rw [h2, hn']
        omega

/-- Accounting for a terminated cascade: it consumes one grid per executed
spin, and the number of executed spins is the initial allocation plus the
sum of all retrigger amounts of the grids it consumed. -/
lemma run_free_spins_go_accounting (σ : GridSeq) :
    ∀ (fuel k r : ℕ) (acc : ℚ) (exec : ℕ) (w : ℚ) (k' exec' : ℕ),
      run_free_spins_go σ fuel k r acc exec = some (w, k', exec') →
      k ≤ k' ∧ exec' = exec + (k' - k) ∧
        k' - k = r + ∑ j ∈ Finset.Ico k k', retrigAmt (σ j) := by
  intro fuel
  induction fuel with
  | zero =>
      intro k r acc exec w k' exec' h
      cases r with
      | zero =>
          simp only [run_free_spins_go, Option.some.injEq, Prod.mk.injEq] at h
          obtain ⟨-, hk, he⟩ := h
          subst hk; subst he
          simp
      | succ r' =>
          simp only [run_free_spins_go] at h
          exact Option.noConfusion h
  | succ fuel ih =>
      intro k r acc exec w k' exec' h
      cases r with
      | zero =>
          simp only [run_free_spins_go, Option.some.injEq, Prod.mk.injEq] at h
          obtain ⟨-, hk, he⟩ := h
          subst hk; subst he
          simp
      | succ r' =>
          simp only [run_free_spins_go] at h
          obtain ⟨h1, h2, h3⟩ := ih (k + 1) (r' + retrigAmt (σ k)) _ (exec + 1) w k' exec' h
          have hkk : k < k' := Nat.lt_of_lt_of_le (Nat.lt_succ_self k) h1
          refine ⟨Nat.le_of_lt hkk, by omega, ?_⟩
          rw [Finset.sum_eq_sum_Ico_succ_bot hkk]
          omega

/-- In the trigger branch, the played-spins counter advances by exactly the
initially awarded amount, and the accumulated cascade win is added (with
the base win) into the spin's contribution to `total_won`. -/
lemma spin_step_trigger_effects (σ : GridSeq) (fuel : ℕ) (stats : SimStats)
    (k : ℕ) (s' : SimStats) (k' : ℕ)
    (hc : 3 ≤ count_scatters (σ k) ∧
        (FREE_SPIN_TRIGGER (count_scatters (σ k))).isSome = true)
    (h : spin_step σ fuel stats k = some (s', k')) :
    ∃ (fw : ℚ) (ex : ℕ),
      run_free_spins σ fuel (k + 1)
          ((FREE_SPIN_TRIGGER (count_scatters (σ k))).getD 0) = some (fw, k', ex) ∧
        s'.total_won = stats.total_won + (evaluate_ways_win (σ k) + fw) ∧
        s'.free_spins_played = stats.free_spins_played +
          (FREE_SPIN_TRIGGER (count_scatters (σ k))).getD 0 ∧
        s'.feature_won = stats.feature_won + fw := by
  rcases hr : run_free_spins σ fuel (k + 1)
      ((FREE_SPIN_TRIGGER (count_scatters (σ k))).getD 0) with _ | ⟨fw, kk, ex⟩
  · rw [run_free_spins] at hr
    simp only [spin_step, if_pos hc, run_free_spins, hr] at h
    exact absurd h (by simp)
  · rw [spin_step_trigger σ fuel stats k hc fw kk ex hr] at h
    simp only [Option.some.injEq, Prod.mk.injEq] at h
    obtain ⟨hs, hk⟩ := h
    subst hs; subst hk
    refine ⟨fw, ex, rfl, ?_, ?_, ?_⟩
    · rw [trackStats_total_won]
    · rw [trackStats_free_spins_played]
    · unfold trackStats
      split <;> rfl

/-! ### Nonnegativity of all wins (needed for the confidence interval) -/

lemma lookup_vals_nonneg :
    ∀ (l : List (ℕ × ℚ)), (∀ p ∈ l, 0 ≤ p.2) →
      ∀ (L : ℕ) (m : ℚ), l.lookup L = some m → 0 ≤ m := by
  intro l
  induction l with
  | nil => intro _ L m h; simp [List.lookup] at h
  | cons a rest ih =>
      intro hall L m h
      obtain ⟨kk, v⟩ := a
      simp only [List.lookup] at h
      rcases hb : (L == kk) with _ | _
      · rw [hb] at h
        exact ih (fun p hp => hall p (List.mem_cons_of_mem _ hp)) L m h
      · rw [hb] at h
        simp only [Option.some.injEq] at h
        subst h
        exact hall (kk, v) (List.mem_cons_self _ _)

lemma table_vals_nonneg :
    ∀ (pt : List (String × List (ℕ × ℚ))) (s : String),
      (∀ e ∈ pt, ∀ p ∈ e.2, 0 ≤ p.2) →
      ∀ p ∈ (pt.lookup s).getD [], 0 ≤ p.2 := by
  intro pt
  induction pt with
  | nil => intro s _ p hp; simp [List.lookup] at hp
  | cons e rest ih =>
      intro s hall p hp
      obtain ⟨key, tbl⟩ := e
      simp only [List.lookup] at hp
      rcases hb : (s == key) with _ | _
      · rw [hb] at hp
        exact ih s (fun e he q hq => hall e (List.mem_cons_of_mem _ he) q hq) p hp
      · rw [hb] at hp
        exact hall (key, tbl) (List.mem_cons_self _ _) p hp

lemma paytableLookup_nonneg (s : String) (L : ℕ) (m : ℚ)
    (h : paytableLookup s L = some m) : 0 ≤ m := by
  unfold paytableLookup at h
  have hPT : ∀ e ∈ PAYTABLE, ∀ p ∈ e.2, 0 ≤ p.2 := by
    intro e he p hp
    fin_cases he <;> fin_cases hp <;> norm_num
  exact lookup_vals_nonneg _ (table_vals_nonneg PAYTABLE s hPT) L m h

lemma payScan_nonneg (s : String) (counts : List ℕ) :
    ∀ l : List ℕ, 0 ≤ payScan s counts l := by
  intro l
  induction l with
  | nil => simp [payScan]
  | cons L rest ih =>
      rcases hp : paytableLookup s L with _ | m
      · simp only [payScan, hp]
        exact ih
      · simp only [payScan, hp]
        exact mul_nonneg (paytableLookup_nonneg s L m hp) (Nat.cast_nonneg _)

lemma symbolWin_nonneg (g : Grid) (s : String) : 0 ≤ symbolWin g s := by
  by_cases h : (counts_per_reel g s).length < 3 <;>
    simp [symbolWin, h, payScan_nonneg]

lemma evaluate_ways_win_nonneg (g : Grid) : 0 ≤ evaluate_ways_win g := by
  unfold evaluate_ways_win
  rw [foldl_add_eq g payingSymbols 0, zero_add]
  apply List.sum_nonneg
  intro x hx
  obtain ⟨s, hs, rfl⟩ := List.mem_map.mp hx
  exact symbolWin_nonneg g s

lemma run_free_spins_go_acc_le (σ : GridSeq) :
    ∀ (fuel k r : ℕ) (acc : ℚ) (exec : ℕ) (w : ℚ) (k' exec' : ℕ),
      run_free_spins_go σ fuel k r acc exec = some (w, k', exec') → acc ≤ w := by
  intro fuel
  induction fuel with
  | zero =>
      intro k r acc exec w k' exec' h
      cases r with
      | zero =>
          simp only [run_free_spins_go, Option.some.injEq, Prod.mk.injEq] at h
          exact le_of_eq h.1
      | succ r' =>
          simp only [run_free_spins_go] at h
          exact Option.noConfusion h
  | succ fuel ih =>
      intro k r acc exec w k' exec' h
      cases r with
      | zero =>
          simp only [run_free_spins_go, Option.some.injEq, Prod.mk.injEq] at h
          exact le_of_eq h.1
      | succ r' =>
          simp only [run_free_spins_go] at h
          have hstep := ih (k + 1) (r' + retrigAmt (σ k)) _ (exec + 1) w k' exec' h
          have hwin : 0 ≤ evaluate_ways_win (σ k) * FREE_SPIN_MULTIPLIER :=
            mul_nonneg (evaluate_ways_win_nonneg (σ k)) (by norm_num [FREE_SPIN_MULTIPLIER])
          linarith

lemma spin_step_total_won_le (σ : GridSeq) (fuel : ℕ) (stats : SimStats)
    (k : ℕ) (s' : SimStats) (k' : ℕ)
    (h : spin_step σ fuel stats k = some (s', k')) :
    stats.total_won ≤ s'.total_won := by
  by_cases hc : 3 ≤ count_scatters (σ k) ∧
      (FREE_SPIN_TRIGGER (count_scatters (σ k))).isSome = true
  · obtain ⟨fw, ex, hr, hwon, -, -⟩ := spin_step_trigger_effects σ fuel stats k s' k' hc h
    have hfw : (0 : ℚ) ≤ fw := by
      rw [run_free_spins] at hr
      exact run_free_spins_go_acc_le σ fuel (k + 1) _ 0 0 fw k' ex hr
    have hb := evaluate_ways_win_nonneg (σ k)
    linarith [hwon.le]
  · rw [spin_step_no_trigger σ fuel stats k hc] at h
    simp only [Option.some.injEq, Prod.mk.injEq] at h
    obtain ⟨hs, -⟩ := h
    subst hs
    rw [trackStats_total_won]
    have := evaluate_ways_win_nonneg (σ k)
    linarith

lemma sim_loop_total_won_nonneg (σ : GridSeq) (fuel : ℕ) :
    ∀ (n : ℕ) (stats : SimStats) (k : ℕ) (p : SimStats × ℕ),
      0 ≤ stats.total_won → sim_loop σ fuel n stats k = some p →
      0 ≤ p.1.total_won := by
  intro n
  induction n with
  | zero =>
      intro stats k p hw h
      simp only [sim_loop, Option.some.injEq] at h
      subst h
      exact hw
  | succ n ih =>
      intro stats k p hw h
      rw [sim_loop] at h
      rcases hs : spin_step σ fuel stats k with _ | ⟨stats', k'⟩
      · rw [hs] at h
        exact absurd h (by simp)
      · rw [hs] at h
        have hle := spin_step_total_won_le σ fuel stats k stats' k' hs
        exact ih stats' k' p (le_trans hw hle) h

/-! ### One-spin runs in closed form -/

lemma sim_loop_one (σ : GridSeq) (fuel : ℕ)
    (hng : ¬(3 ≤ count_scatters (σ 0) ∧
        (FREE_SPIN_TRIGGER (count_scatters (σ 0))).isSome = true)) :
    sim_loop σ fuel 1 initStats 0 =
      some (trackStats
        { initStats with total_spins := initStats.total_spins + 1
                       , total_wagered := initStats.total_wagered + bet_per_spin
                       , base_game_won :=
                           initStats.base_game_won + evaluate_ways_win (σ 0) }
        (evaluate_ways_win (σ 0)), 0 + 1) := by
  have hs := spin_step_no_trigger σ fuel initStats 0 hng
  simp only [sim_loop, hs]

lemma one_spin_fields (σ : GridSeq) (fuel : ℕ)
    (hng : ¬(3 ≤ count_scatters (σ 0) ∧
        (FREE_SPIN_TRIGGER (count_scatters (σ 0))).isSome = true))
    (p : SimStats × ℕ) (h : sim_loop σ fuel 1 initStats 0 = some p) :
    p.1.total_won = evaluate_ways_win (σ 0) ∧ p.1.total_wagered = 1 ∧
      p.1.total_spins = 1 := by
  rw [sim_loop_one σ fuel hng] at h
  simp only [Option.some.injEq] at h
  subst h
  refine ⟨?_, ?_, ?_⟩
  · rw [trackStats_total_won]
    simp [initStats]
  · rw [trackStats_total_wagered]
    simp [initStats, bet_per_spin]
  · rw [trackStats_total_spins]
    simp [initStats]

/-! ### The claims -/

/-- Claim C2 (counterexample): on the reachable grid `g6` the optimizer's
batch evaluator awards 2 (the H1 row run only) while the engine's
`evaluate_ways_win` awards 6 (H1 run plus a ways L2 five-of-a-kind spread
over rows), so the two payouts differ. -/
theorem claim2_counterexample :
    tier1_simulate_win g6 = 2 ∧ evaluate_ways_win g6 = 6 ∧
      tier1_simulate_win g6 ≠ evaluate_ways_win g6 := by
  refine ⟨eval_tier1_g6, eval_g6, ?_⟩
  rw [eval_tier1_g6, eval_g6]
  norm_num

/-- Claim C2 (amended): the optimizer's per-iteration batch simulation is
not payout-equivalent to the engine's `evaluate_ways_win`: it evaluates
per-row exact-symbol runs, without wild substitution or ways
multiplication, and there are grids reachable from the reel strips where
the two evaluators award different payouts. -/
theorem claim2_amended_not_a_refinement :
    ∃ g : Grid, tier1_simulate_win g ≠ evaluate_ways_win g :=
  ⟨g6, by rw [eval_tier1_g6, eval_g6]; norm_num⟩

/-- Claim C3 (counterexample): with zero spins `run_simulation` raises
`ZeroDivisionError` (the final RTP division is unguarded), instead of
returning RTP 0 with an invalid flag. -/
theorem claim3_counterexample :
    run_simulation (fun _ => ([] : List (List String))) 0 0 =
      Except.error "ZeroDivisionError" := rfl

/-- Claim C3 (amended): invoking `run_simulation` with zero spins raises
`ZeroDivisionError` at the final measured-RTP division for every grid
sequence and fuel; only the in-loop progress display guards its division,
and no invalid flag exists. -/
theorem claim3_zero_spins_raises (σ : GridSeq) (fuel : ℕ) :
    run_simulation σ fuel 0 = Except.error "ZeroDivisionError" := rfl

/-- Claim C4: every completed spin step adds exactly one unit to both the
wager and the spin count, so at every point of `run_simulation` the
accumulator invariant `total_wagered == total_spins` holds exactly, and
after a completed `n`-spin run the common value is `n`. -/
theorem claim4_wagered_equals_total_spins :
    (∀ (σ : GridSeq) (fuel : ℕ) (stats : SimStats) (k : ℕ)
        (s' : SimStats) (k' : ℕ),
        stats.total_wagered = (stats.total_spins : ℚ) →
        spin_step σ fuel stats k = some (s', k') →
        s'.total_wagered = (s'.total_spins : ℚ)) ∧
    (∀ (σ : GridSeq) (fuel n : ℕ) (p : SimStats × ℕ),
        sim_loop σ fuel n initStats 0 = some p →
        p.1.total_wagered = (p.1.total_spins : ℚ) ∧ p.1.total_spins = n) := by
  constructor
  · intro σ fuel stats k s' k' hw h
    obtain ⟨h1, h2⟩ := spin_step_wager_spin σ fuel stats k s' k' h
    rw [h1, h2, hw]
    push_cast
    ring
  · intro σ fuel n p h
    have := sim_loop_invariant σ fuel n initStats 0 p (by simp [initStats]) h
    simpa [initStats] using this

theorem claim4_witness :
    initStats.total_wagered = (initStats.total_spins : ℚ) ∧
      sim_loop seqLoss 0 1 initStats 0 = some pLoss ∧
      (pLoss.1.total_wagered = (pLoss.1.total_spins : ℚ) ∧
        pLoss.1.total_spins = 1) :=
  ⟨by simp [initStats], rfl,
    claim4_wagered_equals_total_spins.2 seqLoss 0 1 pLoss rfl⟩

/-- Claim C5: a qualifying scatter count on a free spin adds the triggered
amount to the remaining-spin counter (the counter continues from `r`, it is
not restarted); the cascade returns exactly when the remaining counter
reaches zero; and on a triggered base spin the accumulated cascade win is
added (with the base win) into that spin's contribution to the total win. -/
theorem claim5_retrigger_adds_and_win_folds :
    (∀ (σ : GridSeq) (fuel k r : ℕ) (acc : ℚ) (exec : ℕ),
        3 ≤ count_scatters (σ k) →
        (FREE_SPIN_TRIGGER (count_scatters (σ k))).isSome = true →
        run_free_spins_go σ (fuel + 1) k (r + 1) acc exec =
          run_free_spins_go σ fuel (k + 1)
            (r + (FREE_SPIN_TRIGGER (count_scatters (σ k))).getD 0)
            (acc + evaluate_ways_win (σ k) * FREE_SPIN_MULTIPLIER) (exec + 1)) ∧
    (∀ (σ : GridSeq) (fuel k : ℕ) (acc : ℚ) (exec : ℕ),
        run_free_spins_go σ fuel k 0 acc exec = some (acc, k, exec)) ∧
    (∀ (σ : GridSeq) (fuel : ℕ) (stats : SimStats) (k : ℕ)
        (s' : SimStats) (k' : ℕ),
        3 ≤ count_scatters (σ k) →
        (FREE_SPIN_TRIGGER (count_scatters (σ k))).isSome = true →
        spin_step σ fuel stats k = some (s', k') →
        ∃ (fw : ℚ) (ex : ℕ),
          run_free_spins σ fuel (k + 1)
              ((FREE_SPIN_TRIGGER (count_scatters (σ k))).getD 0) =
            some (fw, k', ex) ∧
          s'.total_won = stats.total_won + (evaluate_ways_win (σ k) + fw)) := by
  refine ⟨?_, ?_, ?_⟩
  · intro σ fuel k r acc exec h1 h2
    simp only [run_free_spins_go, retrigAmt_of_trigger (σ k) h1 h2]
  · intro σ fuel k acc exec
    cases fuel <;> rfl
  · intro σ fuel stats k s' k' h1 h2 h
    obtain ⟨fw, ex, hr, hwon, -, -⟩ :=
      spin_step_trigger_effects σ fuel stats k s' k' ⟨h1, h2⟩ h
    exact ⟨fw, ex, hr, hwon⟩

theorem claim5_witness :
    (3 ≤ count_scatters (seqSC 0) ∧
      (FREE_SPIN_TRIGGER (count_scatters (seqSC 0))).isSome = true) ∧
    run_free_spins_go seqSC 20 0 10 0 0 =
      run_free_spins_go seqSC 19 1
        (9 + (FREE_SPIN_TRIGGER (count_scatters (seqSC 0))).getD 0)
        (0 + evaluate_ways_win (seqSC 0) * FREE_SPIN_MULTIPLIER) 1 :=
  ⟨⟨by decide, by decide⟩,
    claim5_retrigger_adds_and_win_folds.1 seqSC 19 0 9 0 0 (by decide) (by decide)⟩

/-- Claim C6 witness: on a reachable grid with a wild on reel 1, the
per-reel match count of the paying symbol L2 equals its exact-match count
plus the wild count. -/
theorem claim6_witness :
    "L2" ∈ payingSymbols ∧
      reelCount gWD "L2" 0 = exactCount gWD "L2" 0 + exactCount gWD WILD_SYMBOL 0 :=
  ⟨by decide,
    claim6_wild_never_standalone_always_extends.2.2 gWD 0 "L2" (by decide)⟩

/-- Claim C7 (counterexample): at measured RTP 96.9, target 96, iteration 0
the code's adjustment strength is `max(1, int(1.8)) = 1`, while the claim's
`max(1, round(1.8)) = 2`. -/
theorem claim7_counterexample :
    adjust_strength 96.9 96 0 = 1 ∧ claim_strength 96.9 96 0 = 2 ∧
      adjust_strength 96.9 96 0 ≠ claim_strength 96.9 96 0 := by
  have habs : |(96.9 : ℚ) - 96| = 9 / 10 := by
    rw [abs_of_nonneg] <;> norm_num
  have harg : |(96.9 : ℚ) - 96| * 2 / (1 + ((0 : ℕ) : ℚ) * 0.3) = 9 / 5 := by
    rw [habs]
    push_cast
    norm_num
  have hfl : ⌊(9 / 5 : ℚ)⌋ = 1 := by
    rw [Int.floor_eq_iff]; norm_num
  have hrd : ⌊(9 / 5 : ℚ) + 1 / 2⌋ = 2 := by
    rw [Int.floor_eq_iff]; norm_num
  have h1 : adjust_strength 96.9 96 0 = 1 := by
    simp only [adjust_strength, pyInt, harg]
    rw [if_pos (by norm_num), hfl]
    omega
  have h2 : claim_strength 96.9 96 0 = 2 := by
    simp only [claim_strength, harg, round_eq]
    rw [hrd]
    omega
  exact ⟨h1, h2, by rw [h1, h2]; omega⟩

/-- Claim C7 (amended): in every non-converged iteration the adjustment
strength equals `max(1, floor(|measured − target| · 2 / (1 + iteration·0.3)))`
— the code truncates with `int()`, it does not round. -/
theorem claim7_strength_uses_truncation (current target : ℚ) (i : ℕ) :
    adjust_strength current target i =
      max 1 ⌊|current - target| * 2 / (1 + (i : ℚ) * 0.3)⌋ := by
  have hd : (0 : ℚ) < 1 + (i : ℚ) * 0.3 := by positivity
  have hx : (0 : ℚ) ≤ |current - target| * 2 / (1 + (i : ℚ) * 0.3) :=
    div_nonneg (by positivity) hd.le
  simp only [adjust_strength, pyInt]
  rw [if_pos hx]

/-- Claim C8 (counterexample): the completed one-spin run on `seq6` has
measured RTP 600% > 100%, the confidence-interval radicand is negative,
`np.sqrt` yields NaN, and no interval containing the point estimate is
produced. -/
theorem claim8_counterexample :
    sim_loop seq6 0 1 initStats 0 = some p6 ∧ rtpQ p6.1 = 600 ∧
      rtp_ci (rtpQ p6.1) p6.1.total_spins = none := by
  have h1 : sim_loop seq6 0 1 initStats 0 = some p6 := rfl
  obtain ⟨hw, hwag, hsp⟩ := one_spin_fields seq6 0 (by decide) p6 h1
  have hr600 : rtpQ p6.1 = 600 := by
    have h6 : evaluate_ways_win (seq6 0) = 6 := eval_g6
    rw [rtpQ, hw, hwag, h6]
    norm_num
  refine ⟨h1, hr600, ?_⟩
  rw [hr600, hsp]
  unfold rtp_ci npSqrt
  rw [if_neg (by unfold ci_radicand; norm_num)]
  rfl

/-- Claim C8 (amended): for every completed run with at least one spin
whose measured RTP is at most 100 (the measured RTP of a run is always
nonnegative), the reported 99% confidence interval exists and contains the
point-estimate RTP; when the measured RTP exceeds 100 the radicand is
negative and `np.sqrt` produces NaN bounds. -/
theorem claim8_ci_contains_rtp :
    ∀ (σ : GridSeq) (fuel n : ℕ) (p : SimStats × ℕ),
      1 ≤ n → sim_loop σ fuel n initStats 0 = some p → rtpQ p.1 ≤ 100 →
      ∃ lo hi : ℝ, rtp_ci (rtpQ p.1) p.1.total_spins = some (lo, hi) ∧
        lo ≤ (rtpQ p.1 : ℝ) ∧ ((rtpQ p.1 : ℚ) : ℝ) ≤ hi := by
  intro σ fuel n p hn hloop hle
  have hinv := sim_loop_invariant σ fuel n initStats 0 p (by simp [initStats]) hloop
  have hwon := sim_loop_total_won_nonneg σ fuel n initStats 0 p
    (by simp [initStats]) hloop
  have hrtp0 : 0 ≤ rtpQ p.1 := by
    rw [rtpQ]
    apply mul_nonneg _ (by norm_num)
    apply div_nonneg hwon
    rw [hinv.1]
    positivity
  have hrad : 0 ≤ ci_radicand (rtpQ p.1) p.1.total_spins := by
    unfold ci_radicand
    apply div_nonneg (mul_nonneg hrtp0 (by linarith)) (by positivity)
  refine ⟨(rtpQ p.1 : ℝ) -
      2.576 * Real.sqrt ((ci_radicand (rtpQ p.1) p.1.total_spins : ℚ) : ℝ),
    (rtpQ p.1 : ℝ) +
      2.576 * Real.sqrt ((ci_radicand (rtpQ p.1) p.1.total_spins : ℚ) : ℝ),
    ?_, ?_, ?_⟩
  · unfold rtp_ci npSqrt
    rw [if_pos hrad]
    rfl
  · have hs : (0 : ℝ) ≤
        2.576 * Real.sqrt ((ci_radicand (rtpQ p.1) p.1.total_spins : ℚ) : ℝ) :=
      mul_nonneg (by norm_num) (Real.sqrt_nonneg _)
    linarith
  · have hs : (0 : ℝ) ≤
        2.576 * Real.sqrt ((ci_radicand (rtpQ p.1) p.1.total_spins : ℚ) : ℝ) :=
      mul_nonneg (by norm_num) (Real.sqrt_nonneg _)
    linarith

theorem claim8_witness :
    (1 : ℕ) ≤ 1 ∧ sim_loop seqLoss 0 1 initStats 0 = some pLoss ∧
      rtpQ pLoss.1 ≤ 100 ∧
      (∃ lo hi : ℝ, rtp_ci (rtpQ pLoss.1) pLoss.1.total_spins = some (lo, hi) ∧
        lo ≤ (rtpQ pLoss.1 : ℝ) ∧ ((rtpQ pLoss.1 : ℚ) : ℝ) ≤ hi) := by
  have h1 : sim_loop seqLoss 0 1 initStats 0 = some pLoss := rfl
  obtain ⟨hw, hwag, hsp⟩ := one_spin_fields seqLoss 0 (by decide) pLoss h1
  have hle : rtpQ pLoss.1 ≤ 100 := by
    have h0 : evaluate_ways_win (seqLoss 0) = 0 := eval_gLoss
    rw [rtpQ, hw, hwag, h0]
    norm_num
  exact ⟨le_refl 1, h1, hle, claim8_ci_contains_rtp seqLoss 0 1 pLoss (le_refl 1) h1 hle⟩

/-- Claim C9: the churn-risk classification is exactly CRITICAL below 50
median spins, HIGH on [50,100), MEDIUM on [100,150) and LOW from 150 up;
in particular 49 → CRITICAL, 149 → MEDIUM and 151 → LOW. -/
theorem claim9_churn_risk_boundaries :
    (∀ m : ℚ,
      (churn_risk m = "CRITICAL" ↔ m < 50) ∧
      (churn_risk m = "HIGH" ↔ 50 ≤ m ∧ m < 100) ∧
      (churn_risk m = "MEDIUM" ↔ 100 ≤ m ∧ m < 150) ∧
      (churn_risk m = "LOW" ↔ 150 ≤ m)) ∧
    churn_risk 49 = "CRITICAL" ∧ churn_risk 149 = "MEDIUM" ∧
      churn_risk 151 = "LOW" := by
  constructor
  · intro m
    unfold churn_risk
    split_ifs with h1 h2 h3 <;>
      refine ⟨?_, ?_, ?_, ?_⟩ <;> simp <;> try constructor
    all_goals try intro hx
    all_goals try linarith
  · refine ⟨?_, ?_, ?_⟩ <;> norm_num [churn_risk]

/-- Claim C10: the `free_spins_played` counter advances only by the
initially awarded amount at base-game trigger time; a terminated cascade
executes its initial allocation plus all retrigger additions, so whenever
any consumed grid retriggers, the counter increment is strictly less than
the number of free spins actually executed. -/
theorem claim10_retriggered_spins_not_counted :
    (∀ (σ : GridSeq) (fuel : ℕ) (stats : SimStats) (k : ℕ)
        (s' : SimStats) (k' : ℕ),
        3 ≤ count_scatters (σ k) →
        (FREE_SPIN_TRIGGER (count_scatters (σ k))).isSome = true →
        spin_step σ fuel stats k = some (s', k') →
        s'.free_spins_played = stats.free_spins_played +
          (FREE_SPIN_TRIGGER (count_scatters (σ k))).getD 0) ∧
    (∀ (σ : GridSeq) (fuel k r : ℕ) (acc : ℚ) (exec : ℕ) (w : ℚ)
        (k' exec' : ℕ),
        run_free_spins_go σ fuel k r acc exec = some (w, k', exec') →
        k ≤ k' ∧ exec' = exec + (k' - k) ∧
          k' - k = r + ∑ j ∈ Finset.Ico k k', retrigAmt (σ j)) ∧
    (∀ (σ : GridSeq) (fuel k r : ℕ) (w : ℚ) (k' exec' : ℕ),
        run_free_spins σ fuel k r = some (w, k', exec') →
        0 < ∑ j ∈ Finset.Ico k k', retrigAmt (σ j) → r < exec') := by
  refine ⟨?_, run_free_spins_go_accounting, ?_⟩
  · intro σ fuel stats k s' k' h1 h2 h
    obtain ⟨fw, ex, -, -, hplayed, -⟩ :=
      spin_step_trigger_effects σ fuel stats k s' k' ⟨h1, h2⟩ h
    exact hplayed
  · intro σ fuel k r w k' exec' h hpos
    rw [run_free_spins] at h
    obtain ⟨h1, h2, h3⟩ := run_free_spins_go_accounting σ fuel k r 0 0 w k' exec' h
    omega

theorem claim10_witness :
    run_free_spins seqSC 30 0 10 = some (rfsSC.1, rfsSC.2.1, rfsSC.2.2) ∧
      0 < ∑ j ∈ Finset.Ico 0 rfsSC.2.1, retrigAmt (seqSC j) ∧
      10 < rfsSC.2.2 :=
  ⟨rfl, by decide,
    claim10_retriggered_spins_not_counted.2.2 seqSC 30 0 10 rfsSC.1 rfsSC.2.1
      rfsSC.2.2 rfl (by decide)⟩

end SlotSim
